import Mathlib

/-!
Verification development for the `pregel` GCN data-pipeline repository.

The Python sources are shallowly embedded below.  Floating-point values are
modelled as exact rationals; where IEEE special values matter (division by a
zero mask sum) a dedicated type `F` with `nan`/`inf` values is used.  Two
numerical subroutines that cannot be embedded exactly are kept abstract as
parameters, each clearly documented at its use site:
`np.power(x, -0.5)` (the inverse square root used by the renormalization
trick) and `scipy eigsh` (the largest-magnitude eigenvalue used by the
Chebyshev computation).
-/

namespace Pregel

/-- Square rational matrix, the model of a scipy sparse or dense
`node_count x node_count` float matrix. -/
abbrev Mat (n : ℕ) : Type := Matrix (Fin n) (Fin n) ℚ

/-! ## app/ds/graph/base_graph.py : symmetic_adj -/

/-- Embedding of `base_graph.symmetic_adj`:
`adj + adj_t.multiply(adj_t > adj) - adj.multiply(adj_t > adj)` where
`adj_t = adj.T`, `>` is the elementwise comparison producing a 0/1 mask and
`.multiply` is the elementwise product. -/
def symmetic_adj {n : ℕ} (adj : Mat n) : Mat n :=
  Matrix.of fun i j =>
    adj i j + adj.transpose i j * (if adj i j < adj.transpose i j then 1 else 0)
      - adj i j * (if adj i j < adj.transpose i j then 1 else 0)

/-! ## app/ds/data_pipeline.py : _populate_feed_dicts -/

/-- Embedding of the weight normalisation
`dataset_splits = map(lambda x: x / sum(dataset_splits), dataset_splits)`
applied to one weight. -/
def splitProportion (wi W : ℕ) : ℚ := (wi : ℚ) / (W : ℚ)

/-- Embedding of `int(data_size * dataset_splits[i])`: Python `int()`
truncates toward zero; the operand is nonnegative so this is the floor. -/
def splitSize (data_size : ℕ) (p : ℚ) : ℕ := (⌊(data_size : ℚ) * p⌋).toNat

/-- Embedding of `train_index = np.arange(current_index, current_index +
int(data_size * dataset_splits[0]))` with `current_index = 0`
(data_pipeline.py line 58). -/
def train_index (data_size w0 w1 w2 : ℕ) : List ℕ :=
  List.range' 0 (splitSize data_size (splitProportion w0 (w0 + w1 + w2)))

/-- Embedding of `val_index` (data_pipeline.py line 60): the block starts at
`current_index = int(data_size * dataset_splits[0])`. -/
def val_index (data_size w0 w1 w2 : ℕ) : List ℕ :=
  List.range' (splitSize data_size (splitProportion w0 (w0 + w1 + w2)))
    (splitSize data_size (splitProportion w1 (w0 + w1 + w2)))

/-- Embedding of `test_index` (data_pipeline.py line 62): the source sets
`current_index = int(data_size * dataset_splits[1])` (line 61, it does not
accumulate), so the test block starts at the size of the validation split. -/
def test_index (data_size w0 w1 w2 : ℕ) : List ℕ :=
  List.range' (splitSize data_size (splitProportion w1 (w0 + w1 + w2)))
    (splitSize data_size (splitProportion w2 (w0 + w1 + w2)))

/-- Embedding of `data_pipeline.map_indices_to_mask`: a float vector of
length `mask_size` holding 1.0 at the given indices and 0.0 elsewhere. -/
def map_indices_to_mask (indices : List ℕ) (mask_size : ℕ) : List ℚ :=
  (List.range mask_size).map (fun i => if i ∈ indices then 1 else 0)

/-- One feed dict, restricted to the two slots the claims are about.  The
`labels`, `features` and `supports` entries of `get_base_feed_dict` are
identical across the three dicts and are omitted.  A field holds `none`
when the corresponding key is absent from the Python dict. -/
structure FeedDict where
  mask : Option (List ℚ)
  dropout : Option ℚ
deriving DecidableEq

/-- Embedding of `get_base_feed_dict()`: the fresh dict has no `mask` and no
`dropout` key. -/
def get_base_feed_dict : FeedDict := { mask := none, dropout := none }

/-- The three feed dicts populated by `_populate_feed_dicts`. -/
structure FeedDicts where
  train_feed_dict : FeedDict
  validation_feed_dict : FeedDict
  test_feed_dict : FeedDict
deriving DecidableEq

/-- Embedding of the tail of `DataPipeline._populate_feed_dicts`
(data_pipeline.py lines 78-88), assignment by assignment.  Note that lines
84 and 88 of the source assign `0.0` to `self.train_feed_dict`, not to the
validation/test dicts. -/
def populate_feed_dicts (data_size : ℕ) (dropout : ℚ) (w0 w1 w2 : ℕ) : FeedDicts :=
  let t0 := get_base_feed_dict
  let t1 : FeedDict :=
    { t0 with mask := some (map_indices_to_mask (train_index data_size w0 w1 w2) data_size) }
  let t2 : FeedDict := { t1 with dropout := some dropout }
  let v0 := get_base_feed_dict
  let v1 : FeedDict :=
    { v0 with mask := some (map_indices_to_mask (val_index data_size w0 w1 w2) data_size) }
  let t3 : FeedDict := { t2 with dropout := some 0 }
  let u0 := get_base_feed_dict
  let u1 : FeedDict :=
    { u0 with mask := some (map_indices_to_mask (test_index data_size w0 w1 w2) data_size) }
  let t4 : FeedDict := { t3 with dropout := some 0 }
  { train_feed_dict := t4, validation_feed_dict := v1, test_feed_dict := u1 }

/-! ## app/ds/graph/np_graph.py : read_network -/

/-- Truncation of a rational toward zero, the rounding a C `double` to
integer cast performs. -/
def truncRat (q : ℚ) : ℤ := if 0 ≤ q then ⌊q⌋ else ⌈q⌉

/-- Conversion of a parsed float to `np.int32`, as performed by
`np.array(..., dtype=np.int32)` in `read_network` (np_graph.py line 38):
truncation toward zero followed by a 32-bit two's-complement wrap. -/
def int32_cast (q : ℚ) : ℤ := Int.bmod (truncRat q) (2 ^ 32)

/-- Embedding of the weighted (three-column) branch of
`Graph.read_network` (np_graph.py lines 34-38): each line is mapped to
`(node_to_id_map[a], node_to_id_map[b], float(w))` and the resulting array
is built with `dtype=np.int32`, so all three columns — including the parsed
float weight — pass through the int32 conversion. -/
def read_network_weighted (node_to_id : String → ℕ)
    (edges : List (String × String × ℚ)) : List (ℕ × ℕ × ℤ) :=
  edges.map (fun e => (node_to_id e.1, node_to_id e.2.1, int32_cast e.2.2))

/-- The float data column handed to `sp.coo_matrix` by the weighted branch
(np_graph.py line 39, `edges[:, 2]` cast to float32, which is exact on
int32 values of this magnitude in our rational float model). -/
def weighted_edge_weights (node_to_id : String → ℕ)
    (edges : List (String × String × ℚ)) : List ℚ :=
  (read_network_weighted node_to_id edges).map (fun e => ((e.2.2 : ℤ) : ℚ))

/-- Embedding of the unweighted (two-column) branch of `Graph.read_network`
(np_graph.py lines 25-30): ids are mapped through `node_to_id_map` and the
data column is `np.ones(edges.shape[0])`. -/
def read_network_unweighted (node_to_id : String → ℕ)
    (edges : List (String × String)) : List (ℕ × ℕ × ℚ) :=
  edges.map (fun e => (node_to_id e.1, node_to_id e.2, (1 : ℚ)))

/-! ## app/ds/graph/base_graph.py : read_labels -/

/-- The mutable mapping state of `Base_Graph` that `read_labels` reads and
writes.  Dictionaries are association lists; the Python `set()` iteration
order used for id assignment is nondeterministic, modelled here by the
first-occurrence order of `dedup` (the claims under study depend only on
sizes, which are order-independent). -/
structure BaseGraphState where
  label_to_id_map : List (String × ℕ)
  node_to_id_map : List (String × ℕ)
  id_to_label_map : List (ℕ × String)
  id_to_node_map : List (ℕ × String)
  node_to_label_map : List (ℕ × List ℕ)
  label_to_node_map : List (ℕ × List ℕ)
  labels : List (List ℚ)
deriving DecidableEq

/-- The state of a freshly constructed graph: all maps empty
(base_graph.py lines 32-40). -/
def initial_base_graph : BaseGraphState :=
  { label_to_id_map := [], node_to_id_map := [], id_to_label_map := [],
    id_to_node_map := [], node_to_label_map := [], label_to_node_map := [],
    labels := [] }

/-- Embedding of `{key: id for id, key in enumerate(set(keys))}`. -/
def enum_ids (keys : List String) : List (String × ℕ) :=
  keys.enum.map (fun p => (p.2, p.1))

/-- Embedding of `app.utils.util.invert_dict`. -/
def invert_dict (m : List (String × ℕ)) : List (ℕ × String) :=
  m.map (fun p => (p.2, p.1))

/-- Dictionary lookup `m[k]`; within `read_labels` every key looked up was
just inserted, so the default is never reached. -/
def dict_lookup (m : List (String × ℕ)) (k : String) : ℕ :=
  (m.lookup k).getD 0

/-- Embedding of inserting `v` into the set `m[k]` (creating the set on
first touch), as in base_graph.py lines 70-76. -/
def multimap_add (m : List (ℕ × List ℕ)) (k v : ℕ) : List (ℕ × List ℕ) :=
  if m.any (fun p => p.1 = k) then
    m.map (fun p => if p.1 = k then (p.1, if v ∈ p.2 then p.2 else p.2 ++ [v]) else p)
  else m ++ [(k, [v])]

/-- Embedding of `app.utils.util.map_set_to_khot_vector`: a 0/1 float
vector with a 1.0 at each id of the index set. -/
def map_set_to_khot_vector (index_set : List ℕ) (num_classes : ℕ) : List ℚ :=
  (List.range num_classes).map (fun i => if i ∈ index_set then 1 else 0)

/-- Embedding of `Base_Graph.read_labels` (base_graph.py lines 44-109) on a
graph in state `s`, reading the parsed `(node, label)` rows `data`.  The
two `assert` statements (lines 85-89) are modelled as the two error
branches; note they compare `self.id_to_node_map` with
`self.node_to_label_map` and `self.id_to_label_map` with
`self.label_to_node_map` — the attributes of the PRE-call state `s`, since
the source only assigns the freshly computed local maps to `self` after
both asserts (lines 94-106). -/
def read_labels (s : BaseGraphState) (data : List (String × String)) :
    Except String BaseGraphState :=
  let label_to_id_map := enum_ids ((data.map Prod.snd).dedup)
  let node_to_id_map := enum_ids ((data.map Prod.fst).dedup)
  let node_to_label_map := data.foldl
    (fun acc d => multimap_add acc (dict_lookup node_to_id_map d.1)
      (dict_lookup label_to_id_map d.2)) []
  let label_to_node_map := data.foldl
    (fun acc d => multimap_add acc (dict_lookup label_to_id_map d.2)
      (dict_lookup node_to_id_map d.1)) []
  let labels := node_to_label_map.map
    (fun p => map_set_to_khot_vector p.2 label_to_id_map.length)
  if s.id_to_node_map.length = s.node_to_label_map.length then
    if s.id_to_label_map.length = s.label_to_node_map.length then
      Except.ok
        { label_to_id_map := label_to_id_map,
          node_to_id_map := node_to_id_map,
          id_to_label_map := invert_dict label_to_id_map,
          id_to_node_map := invert_dict node_to_id_map,
          node_to_label_map := node_to_label_map,
          label_to_node_map := label_to_node_map,
          labels := labels }
    else Except.error "Some labels are missing nodes or ids"
  else Except.error "Some nodes are missing labels or ids"

/-! ## app/model/aemodel/base_model.py : _loss_op and _compute_masked_loss

TensorFlow float scalars are modelled by `F`: exact rational finite values
(no rounding) together with the IEEE special values NaN and the two signed
infinities; the zero is unsigned.  This is enough to express that the
unguarded division by a zero mask sum produces NaN rather than raising. -/

inductive F where
  | nan : F
  | pinf : F
  | ninf : F
  | val : ℚ → F
deriving DecidableEq

/-- IEEE addition on `F`: NaN propagates, opposite infinities give NaN. -/
def F.add : F → F → F
  | .nan, _ => .nan
  | _, .nan => .nan
  | .pinf, .ninf => .nan
  | .ninf, .pinf => .nan
  | .pinf, _ => .pinf
  | _, .pinf => .pinf
  | .ninf, _ => .ninf
  | _, .ninf => .ninf
  | .val a, .val b => .val (a + b)

/-- IEEE multiplication on `F`: NaN propagates, infinity times zero is NaN. -/
def F.mul : F → F → F
  | .nan, _ => .nan
  | _, .nan => .nan
  | .val a, .val b => .val (a * b)
  | .pinf, .pinf => .pinf
  | .pinf, .ninf => .ninf
  | .ninf, .pinf => .ninf
  | .ninf, .ninf => .pinf
  | .pinf, .val b => if b = 0 then .nan else if 0 < b then .pinf else .ninf
  | .val a, .pinf => if a = 0 then .nan else if 0 < a then .pinf else .ninf
  | .ninf, .val b => if b = 0 then .nan else if 0 < b then .ninf else .pinf
  | .val a, .ninf => if a = 0 then .nan else if 0 < a then .ninf else .pinf

/-- IEEE division on `F`: NaN propagates, 0/0 and inf/inf are NaN, a
nonzero finite value divided by (unsigned) zero gives an infinity. -/
def F.div : F → F → F
  | .nan, _ => .nan
  | _, .nan => .nan
  | .val a, .val b =>
      if b = 0 then (if a = 0 then .nan else if 0 < a then .pinf else .ninf)
      else .val (a / b)
  | .pinf, .pinf => .nan
  | .pinf, .ninf => .nan
  | .ninf, .pinf => .nan
  | .ninf, .ninf => .nan
  | .pinf, .val b => if 0 ≤ b then .pinf else .ninf
  | .ninf, .val b => if 0 ≤ b then .ninf else .pinf
  | .val _, .pinf => .val 0
  | .val _, .ninf => .val 0

/-- Model of `tf.reduce_sum` / `tf.sparse_reduce_sum` on a vector of float
scalars (sum of an empty tensor is 0.0). -/
def fsum (l : List F) : F := l.foldl F.add (F.val 0)

/-- Model of `tf.reduce_mean`: the sum divided by the element count. -/
def fmean (l : List F) : F := F.div (fsum l) (F.val (l.length : ℚ))

/-- Embedding of `Base_Model._compute_masked_loss` (base_model.py lines
55-59): `normalized_mask = mask / reduce_sum(mask)` followed by
`reduce_sum(complete_loss * normalized_mask)`.  The sparse mask tensor is
modelled with dense semantics, as the full-length 0.0/1.0 float vector the
data layer's `map_indices_to_mask` produces (spec section 3, "Mask
vector"); elementwise ops act on every entry. -/
def _compute_masked_loss (mask : List F) (complete_loss : List F) : F :=
  let normalized_mask := mask.map (fun x => F.div x (fsum mask))
  fsum (List.zipWith F.mul complete_loss normalized_mask)

/-- Embedding of `Base_Model._loss_op` (base_model.py lines 44-67).  The
per-node vector `complete_loss` stands for the output of
`tf.nn.weighted_cross_entropy_with_logits` (a transcendental per-element
function, kept abstract).  `is_train_mode` models the runtime branch
condition `tf.equal(self.mode, TRAIN)` (the TRAIN constant lives in
app/utils/constant.py, outside src/).  Note the returned branch value is
multiplied by `self.normalisation_constant` (line 67). -/
def _loss_op (is_train_mode : Bool) (complete_loss mask : List F)
    (normalisation_constant : F) : F :=
  let branch := if is_train_mode then fmean complete_loss
    else _compute_masked_loss mask complete_loss
  F.mul branch normalisation_constant

/-! ## app/ds/graph/base_graph.py : renormalization_trick, compute_chebyshev_polynomial -/

/-- Predicate distinguishing a normal Python return from a raised
exception in our `Except` models. -/
def except_is_ok {ε α : Type} : Except ε α → Bool
  | .ok _ => true
  | .error _ => false

/-- Embedding of the body of the `if symmetric:` branch of
`renormalization_trick` (base_graph.py lines 207-214):
`d = sp.diags(np.power(adj.sum(1), -0.5))` followed by
`adj.dot(d).transpose().dot(d)`.  The floating-point inverse square root
`np.power(x, -0.5)` is kept abstract as the parameter `invSqrt`. -/
def renormalized_adj {n : ℕ} (invSqrt : ℚ → ℚ) (adj : Mat n) : Mat n :=
  let d : Mat n := Matrix.diagonal (fun i => invSqrt (∑ j, adj i j))
  ((adj * d).transpose) * d

/-- Embedding of `renormalization_trick(adj, symmetric=True)`
(base_graph.py lines 206-214).  The function contains no raise statement:
with `symmetric=True` it returns the renormalized matrix, and with
`symmetric=False` control falls off the end of the function and Python
returns `None` — both are normal returns, hence `Except.ok`. -/
def renormalization_trick {n : ℕ} (invSqrt : ℚ → ℚ) (adj : Mat n)
    (symmetric : Bool) : Except String (Option (Mat n)) :=
  if symmetric then Except.ok (some (renormalized_adj invSqrt adj))
  else Except.ok none

/-- Embedding of `base_graph.get_identity`, i.e. `sp.eye(size)`. -/
def get_identity (size : ℕ) : Mat size := 1

/-- The local `laplacian_normalized_scaled` of `compute_chebyshev_polynomial`
(base_graph.py lines 223-232): `(2.0 * (I - adj_normalized)) / eigval[0] - I`,
where `adj_normalized` is `renormalization_trick(adj=adj)` (the symmetric
branch) and `eigval[0]`, produced by the scipy `eigsh` iterative solver, is
kept abstract as the parameter `lam`. -/
def scaled_laplacian {n : ℕ} (invSqrt : ℚ → ℚ) (lam : ℚ) (adj : Mat n) : Mat n :=
  lam⁻¹ • ((2 : ℚ) • (get_identity n - renormalized_adj invSqrt adj)) - get_identity n

/-- Embedding of `base_graph._compute_chebyshev_recurrence`:
`next = 2 * X.dot(current) - previous`. -/
def _compute_chebyshev_recurrence {n : ℕ} (current previous X : Mat n) : Mat n :=
  (2 : ℚ) • (X * current) - previous

/-- The list `Tk` of `compute_chebyshev_polynomial` kept in reverse order,
so that its head and second element are the source's `Tk[-1]` and `Tk[-2]`;
the argument counts the iterations of `for i in range(2, degree+1)`.  The
source seeds `Tk = [get_identity(identity_size), laplacian_normalized_scaled]`
and each iteration appends the recurrence of the last two elements. -/
def chebRev {n : ℕ} (X : Mat n) : ℕ → List (Mat n)
  | 0 => [X, get_identity n]
  | k + 1 =>
    match chebRev X k with
    | current :: previous :: rest =>
        _compute_chebyshev_recurrence current previous X :: current :: previous :: rest
    | l => l

/-- Embedding of `base_graph.compute_chebyshev_polynomial(adj, degree)`:
the loop `for i in range(2, degree+1)` runs `degree - 1` times (truncated
subtraction: zero times for degree 0 and 1), after which the accumulated
list is returned in its original order. -/
def compute_chebyshev_polynomial {n : ℕ} (invSqrt : ℚ → ℚ) (lam : ℚ)
    (adj : Mat n) (degree : ℕ) : List (Mat n) :=
  (chebRev (scaled_laplacian invSqrt lam adj) (degree - 1)).reverse

/-- The Chebyshev term of each index as defined by the three-term
recurrence; used to state what the produced list contains. -/
def chebAt {n : ℕ} (X : Mat n) : ℕ → Mat n
  | 0 => get_identity n
  | 1 => X
  | k + 2 => _compute_chebyshev_recurrence (chebAt X (k + 1)) (chebAt X k) X

/-! ## Theorems -/

/-- Entry formula for `symmetic_adj`: every entry is the max-merge of the
pair of opposite entries. -/
theorem symmetic_adj_apply {n : ℕ} (adj : Mat n) (i j : Fin n) :
    symmetic_adj adj i j = max (adj i j) (adj j i) := by
  simp only [symmetic_adj, Matrix.of_apply, Matrix.transpose_apply]
  by_cases h : adj i j < adj j i
  · rw [if_pos h, max_eq_right h.le]; ring
  · rw [if_neg h, max_eq_left (not_lt.mp h)]; ring

/-- C9: for every adjacency matrix and every pair of indices, the
symmetrized adjacency is symmetric and equals the elementwise max of the
matrix and its transpose (a max-merge, not a sum). -/
theorem C9_symmetrize_max {n : ℕ} (adj : Mat n) (i j : Fin n) :
    symmetic_adj adj i j = symmetic_adj adj j i ∧
    symmetic_adj adj i j = max (adj i j) (adj j i) := by
  rw [symmetic_adj_apply, symmetic_adj_apply]
  exact ⟨max_comm _ _, rfl⟩

/-- C10: symmetrization is idempotent: applying `symmetic_adj` twice equals
applying it once. -/
theorem C10_symmetrize_idempotent {n : ℕ} (adj : Mat n) :
    symmetic_adj (symmetic_adj adj) = symmetic_adj adj := by
  ext i j
  rw [symmetic_adj_apply, symmetic_adj_apply, symmetic_adj_apply,
    max_comm (adj j i) (adj i j), max_self]

/-- C1: evaluation of the split-index computation at the failing input
`data_size = 2700` with the default weights `[1200, 500, 1000]`.  The block
sizes are 1200, 500 and 1000 as the claim states, but the test block starts
at `int(data_size * dataset_splits[1]) = 500` (the source reassigns
`current_index` instead of accumulating it), so index 600 lies in both the
train and the test block and index 1300 lies in both the validation and the
test block: the three blocks are not pairwise disjoint. -/
theorem C1_split_overlap :
    (train_index 2700 1200 500 1000).length = 1200 ∧
    (val_index 2700 1200 500 1000).length = 500 ∧
    (test_index 2700 1200 500 1000).length = 1000 ∧
    600 ∈ train_index 2700 1200 500 1000 ∧
    600 ∈ test_index 2700 1200 500 1000 ∧
    1300 ∈ val_index 2700 1200 500 1000 ∧
    1300 ∈ test_index 2700 1200 500 1000 := by
  have e0 : splitSize 2700 (splitProportion 1200 (1200 + 500 + 1000)) = 1200 := by
    simp only [splitSize, splitProportion]; norm_num; rfl
  have e1 : splitSize 2700 (splitProportion 500 (1200 + 500 + 1000)) = 500 := by
    simp only [splitSize, splitProportion]; norm_num; rfl
  have e2 : splitSize 2700 (splitProportion 1000 (1200 + 500 + 1000)) = 1000 := by
    simp only [splitSize, splitProportion]; norm_num; rfl
  refine ⟨?_, ?_, ?_, ?_, ?_, ?_, ?_⟩ <;>
    simp only [train_index, val_index, test_index, e0, e1, e2,
      List.length_range', List.mem_range'_1] <;> omega

/-- C2: evaluation of the dropout assignments at a configured dropout rate of
1/2.  After `_populate_feed_dicts` runs, the train feed dict maps the
dropout slot to 0.0 (its configured value was overwritten by the two later
assignments, source lines 84 and 88, which target `self.train_feed_dict`),
and the validation and test feed dicts contain no dropout entry at all. -/
theorem C2_dropout_assignment :
    (populate_feed_dicts 2700 (1/2) 1200 500 1000).train_feed_dict.dropout = some 0 ∧
    (populate_feed_dicts 2700 (1/2) 1200 500 1000).train_feed_dict.dropout ≠ some (1/2) ∧
    (populate_feed_dicts 2700 (1/2) 1200 500 1000).validation_feed_dict.dropout = none ∧
    (populate_feed_dicts 2700 (1/2) 1200 500 1000).test_feed_dict.dropout = none := by
  refine ⟨rfl, ?_, rfl, rfl⟩
  show some (0 : ℚ) ≠ some (1/2)
  simp

/-- C5: evaluation of the network reader at the failing input, the single
weighted edge line "a b 0.5".  The parsed float weight 1/2 passes through
the `dtype=np.int32` array construction and is truncated to 0 before the
adjacency matrix is built, so the stored weight is 0, not the parsed
float.  The two-column branch does store 1.0 per edge as claimed. -/
theorem C5_weight_truncated :
    weighted_edge_weights (fun _ => 0) [("a", "b", (1/2 : ℚ))] = [(0 : ℚ)] ∧
    (1/2 : ℚ) ≠ (0 : ℚ) ∧
    (read_network_unweighted (fun _ => 0) [("a", "b")]).map (fun e => e.2.2) = [(1 : ℚ)] := by
  have ht : truncRat (1/2 : ℚ) = 0 := by
    rw [truncRat, if_pos (by norm_num)]
    exact Int.floor_eq_zero_iff.mpr (Set.mem_Ico.mpr ⟨by norm_num, by norm_num⟩)
  have hb : Int.bmod (0 : ℤ) (2 ^ 32) = 0 := by decide
  refine ⟨?_, by norm_num, rfl⟩
  simp only [weighted_edge_weights, read_network_weighted, int32_cast, List.map_cons,
    List.map_nil, ht, hb]
  norm_num

/-- C6: the assertions in `read_labels` can never fire on a freshly
constructed graph: they compare the sizes of the pre-call attributes
(`self.id_to_node_map` against `self.node_to_label_map`, and similarly for
labels), which are both empty before the first load, rather than the
freshly computed counts the claim describes.  Hence for every label file
input the call returns normally. -/
theorem C6_read_labels_never_asserts (data : List (String × String)) :
    ∃ s, read_labels initial_base_graph data = Except.ok s :=
  ⟨_, rfl⟩

theorem F.add_val (a b : ℚ) : F.add (F.val a) (F.val b) = F.val (a + b) := rfl

theorem F.add_nan_left (x : F) : F.add F.nan x = F.nan := by cases x <;> rfl

theorem F.add_nan_right (x : F) : F.add x F.nan = F.nan := by cases x <;> rfl

theorem F.mul_val (a b : ℚ) : F.mul (F.val a) (F.val b) = F.val (a * b) := rfl

theorem F.mul_nan_right (x : F) : F.mul x F.nan = F.nan := by cases x <;> rfl

theorem F.div_val_of_ne (a b : ℚ) (hb : b ≠ 0) :
    F.div (F.val a) (F.val b) = F.val (a / b) := by
  simp [F.div, hb]

theorem F.div_zero_zero : F.div (F.val 0) (F.val 0) = F.nan := by
  simp [F.div]

theorem foldl_add_nan (l : List F) : l.foldl F.add F.nan = F.nan := by
  induction l with
  | nil => rfl
  | cons a t ih => rw [List.foldl_cons, F.add_nan_left]; exact ih

theorem fsum_replicate_nan (k : ℕ) (h : 0 < k) :
    fsum (List.replicate k F.nan) = F.nan := by
  cases k with
  | zero => omega
  | succ k =>
    rw [fsum, List.replicate_succ, List.foldl_cons, F.add_nan_right]
    exact foldl_add_nan _

theorem foldl_add_val (l : List ℚ) :
    ∀ c : ℚ, (l.map F.val).foldl F.add (F.val c) = F.val (c + l.sum) := by
  induction l with
  | nil => intro c; simp
  | cons a t ih =>
    intro c
    rw [List.map_cons, List.foldl_cons, F.add_val, ih]
    rw [List.sum_cons]; ring_nf

theorem fsum_map_val (l : List ℚ) : fsum (l.map F.val) = F.val l.sum := by
  have h := foldl_add_val l 0
  rw [fsum, h, zero_add]

theorem zipWith_mul_replicate_nan (l : List F) :
    List.zipWith F.mul l (List.replicate l.length F.nan) = List.replicate l.length F.nan := by
  induction l with
  | nil => rfl
  | cons a t ih =>
    simp only [List.length_cons, List.replicate_succ, List.zipWith_cons_cons,
      F.mul_nan_right, ih]

theorem map_div_val (m : List ℚ) (S : ℚ) (hS : S ≠ 0) :
    (m.map F.val).map (fun x => F.div x (F.val S)) = (m.map (fun x => x / S)).map F.val := by
  induction m with
  | nil => rfl
  | cons a t ih =>
    simp only [List.map_cons]
    rw [F.div_val_of_ne a S hS, ih]

theorem zipWith_mul_map_val (l : List ℚ) : ∀ m : List ℚ,
    List.zipWith F.mul (l.map F.val) (m.map F.val)
      = (List.zipWith (fun a b => a * b) l m).map F.val := by
  induction l with
  | nil => intro m; rfl
  | cons a t ih =>
    intro m
    cases m with
    | nil => rfl
    | cons b u =>
      simp only [List.map_cons, List.zipWith_cons_cons, F.mul_val, ih]

theorem sum_zipWith_div (S : ℚ) : ∀ l m : List ℚ,
    (List.zipWith (fun a b => a * b) l (m.map (fun x => x / S))).sum
      = (List.zipWith (fun a b => a * b) l m).sum / S := by
  intro l
  induction l with
  | nil => intro m; simp
  | cons a t ih =>
    intro m
    cases m with
    | nil => simp
    | cons b u =>
      simp only [List.map_cons, List.zipWith_cons_cons, List.sum_cons]
      rw [ih u, add_div, mul_div_assoc]

/-- C4 counterexample: in eval mode with the all-zero mask of a one-node
graph, the masked loss computation completes normally and returns NaN (the
0/0 from dividing the mask by its zero sum), refuting the claim that an
error is raised rather than NaN returned. -/
theorem C4_zero_mask_nan_cex :
    _compute_masked_loss [F.val 0] [F.val 1] = F.nan := by
  simp [_compute_masked_loss, fsum, F.add, F.div, F.mul]

/-- C4 amended: in eval mode, for every nonempty per-node loss vector and
the all-zero mask of matching length, `_compute_masked_loss` divides by the
zero mask sum without any guard and evaluates to NaN; no error is raised. -/
theorem C4_zero_mask_nan (complete_loss : List F) (h : complete_loss ≠ []) :
    _compute_masked_loss (List.replicate complete_loss.length (F.val 0)) complete_loss
      = F.nan := by
  have hlen : 0 < complete_loss.length := List.length_pos.mpr h
  have hs : fsum (List.replicate complete_loss.length (F.val 0)) = F.val 0 := by
    have hrep : List.replicate complete_loss.length (F.val 0)
        = (List.replicate complete_loss.length (0 : ℚ)).map F.val := by
      rw [List.map_replicate]
    rw [hrep, fsum_map_val]
    simp
  simp only [_compute_masked_loss, hs, List.map_replicate, F.div_zero_zero,
    List.length_replicate]
  rw [zipWith_mul_replicate_nan]
  exact fsum_replicate_nan _ hlen

/-- C4 witness: the amended statement evaluated at the concrete one-node
loss vector. -/
theorem C4_zero_mask_nan_witness :
    ([F.val 1] ≠ ([] : List F)) ∧
    _compute_masked_loss (List.replicate ([F.val 1] : List F).length (F.val 0)) [F.val 1]
      = F.nan :=
  ⟨by simp, C4_zero_mask_nan [F.val 1] (by simp)⟩

/-- C8 counterexample: with per-node loss vector [3], mask [1] and
normalisation constant 2, the train-mode loss operator returns 6, not the
mean 3 of the per-node losses: `_loss_op` multiplies the branch value by
`self.normalisation_constant` (base_model.py line 67), which the claim
omits. -/
theorem C8_normalisation_cex :
    _loss_op true [F.val 3] [F.val 1] (F.val 2) = F.val 6 ∧
    _loss_op true [F.val 3] [F.val 1] (F.val 2) ≠ F.val 3 := by
  have h : _loss_op true [F.val 3] [F.val 1] (F.val 2) = F.val 6 := by
    simp [_loss_op, fmean, fsum, F.add, F.div, F.mul]
    norm_num
  refine ⟨h, ?_⟩
  rw [h]
  simp only [ne_eq, F.val.injEq]
  norm_num

/-- C8 amended: for finite inputs, the loss operator returns the
normalisation constant times the unweighted mean of the per-node losses in
train mode (mask unused), and the normalisation constant times
`sum(loss*mask)/sum(mask)` in eval mode (requiring a nonzero mask sum). -/
theorem C8_loss_modes (l m : List ℚ) (c : ℚ) (h0 : l ≠ []) (hS : m.sum ≠ 0) :
    _loss_op true (l.map F.val) (m.map F.val) (F.val c)
      = F.val (l.sum / (l.length : ℚ) * c) ∧
    _loss_op false (l.map F.val) (m.map F.val) (F.val c)
      = F.val ((List.zipWith (fun a b => a * b) l m).sum / m.sum * c) := by
  constructor
  · have hlen : ((l.length : ℚ)) ≠ 0 := by
      have hl : l.length ≠ 0 := fun hh => h0 (List.length_eq_zero.mp hh)
      exact Nat.cast_ne_zero.mpr hl
    have hstep : _loss_op true (l.map F.val) (m.map F.val) (F.val c)
        = F.mul (fmean (l.map F.val)) (F.val c) := rfl
    have hb : fmean (l.map F.val) = F.val (l.sum / (l.length : ℚ)) := by
      rw [fmean, fsum_map_val, List.length_map]
      exact F.div_val_of_ne _ _ hlen
    rw [hstep, hb, F.mul_val]
  · have hstep : _loss_op false (l.map F.val) (m.map F.val) (F.val c)
        = F.mul (_compute_masked_loss (m.map F.val) (l.map F.val)) (F.val c) := rfl
    have hm : _compute_masked_loss (m.map F.val) (l.map F.val)
        = F.val ((List.zipWith (fun a b => a * b) l m).sum / m.sum) := by
      simp only [_compute_masked_loss, fsum_map_val]
      rw [map_div_val m m.sum hS, zipWith_mul_map_val,
        fsum_map_val, sum_zipWith_div]
    rw [hstep, hm, F.mul_val]

/-- C8 witness: the amended statement evaluated at losses [1,2], mask
[0,1] and normalisation constant 2. -/
theorem C8_loss_modes_witness :
    (([1, 2] : List ℚ) ≠ []) ∧ (([0, 1] : List ℚ).sum ≠ 0) ∧
    (_loss_op true (([1, 2] : List ℚ).map F.val) (([0, 1] : List ℚ).map F.val) (F.val 2)
      = F.val (([1, 2] : List ℚ).sum / ((([1, 2] : List ℚ).length : ℕ) : ℚ) * 2) ∧
     _loss_op false (([1, 2] : List ℚ).map F.val) (([0, 1] : List ℚ).map F.val) (F.val 2)
      = F.val ((List.zipWith (fun a b => a * b) ([1, 2] : List ℚ) ([0, 1] : List ℚ)).sum
          / ([0, 1] : List ℚ).sum * 2)) :=
  ⟨by simp, by norm_num, C8_loss_modes [1, 2] [0, 1] 2 (by simp) (by norm_num)⟩

theorem reverse_map_range_succ {α : Type} (m : ℕ) (f : ℕ → α) :
    ((List.range (m + 1)).map f).reverse = f m :: ((List.range m).map f).reverse := by
  simp [List.range_succ]

theorem chebRev_succ_eq {n : ℕ} (X : Mat n) (k : ℕ) (cur prev : Mat n)
    (rest : List (Mat n)) (h : chebRev X k = cur :: prev :: rest) :
    chebRev X (k + 1) = _compute_chebyshev_recurrence cur prev X :: cur :: prev :: rest := by
  have e : chebRev X (k + 1) = match chebRev X k with
    | current :: previous :: rest =>
        _compute_chebyshev_recurrence current previous X :: current :: previous :: rest
    | l => l := rfl
  rw [e, h]

theorem chebRev_eq {n : ℕ} (X : Mat n) :
    ∀ k, chebRev X k = ((List.range (k + 2)).map (chebAt X)).reverse := by
  intro k
  induction k with
  | zero => rfl
  | succ k ih =>
    have h1 : chebRev X k
        = chebAt X (k + 1) :: chebAt X k :: ((List.range k).map (chebAt X)).reverse := by
      rw [ih, show k + 2 = (k + 1) + 1 from rfl, reverse_map_range_succ,
        reverse_map_range_succ]
    rw [chebRev_succ_eq X k _ _ _ h1,
      show k + 1 + 2 = (k + 2) + 1 from rfl, reverse_map_range_succ,
      show k + 2 = (k + 1) + 1 from rfl, reverse_map_range_succ,
      reverse_map_range_succ]
    rfl

theorem compute_chebyshev_eq {n : ℕ} (invSqrt : ℚ → ℚ) (lam : ℚ) (adj : Mat n)
    (k : ℕ) (hk : 1 ≤ k) :
    compute_chebyshev_polynomial invSqrt lam adj k
      = (List.range (k + 1)).map (chebAt (scaled_laplacian invSqrt lam adj)) := by
  unfold compute_chebyshev_polynomial
  rw [chebRev_eq, List.reverse_reverse, show k - 1 + 2 = k + 1 by omega]

/-- C3 counterexample: requesting degree 0 does not return the
single-element list [I]: the source seeds `Tk` with both the identity and
the scaled Laplacian before the loop, so the returned list has two
elements, not 0 + 1. -/
theorem C3_degree_zero_length :
    (compute_chebyshev_polynomial (fun q => q) 1 (0 : Mat 1) 0).length = 2 ∧
    (2 : ℕ) ≠ 0 + 1 :=
  ⟨rfl, by decide⟩

/-- C3 amended: for every degree k ≥ 1 (and every abstracted inverse
square root and eigenvalue), the Chebyshev computation returns exactly
k + 1 matrices whose first element is the identity, whose second is the
scaled Laplacian, and whose consecutive triples satisfy the three-term
recurrence `T_i = 2 L X T_{i-1} - T_{i-2}`; for degree 0 it instead
returns the two-element list [I, L] (see the counterexample). -/
theorem C3_chebyshev_terms {n : ℕ} (invSqrt : ℚ → ℚ) (lam : ℚ) (adj : Mat n)
    (k : ℕ) (hk : 1 ≤ k) :
    (compute_chebyshev_polynomial invSqrt lam adj k).length = k + 1 ∧
    (compute_chebyshev_polynomial invSqrt lam adj k).get? 0 = some (get_identity n) ∧
    (compute_chebyshev_polynomial invSqrt lam adj k).get? 1
      = some (scaled_laplacian invSqrt lam adj) ∧
    ∀ i, i + 2 ≤ k → ∃ a b,
      (compute_chebyshev_polynomial invSqrt lam adj k).get? i = some a ∧
      (compute_chebyshev_polynomial invSqrt lam adj k).get? (i + 1) = some b ∧
      (compute_chebyshev_polynomial invSqrt lam adj k).get? (i + 2)
        = some ((2 : ℚ) • (scaled_laplacian invSqrt lam adj * b) - a) := by
  have he := compute_chebyshev_eq invSqrt lam adj k hk
  refine ⟨?_, ?_, ?_, ?_⟩
  · rw [he]; simp
  · rw [he, List.get?_map, List.get?_range (by omega : 0 < k + 1)]; rfl
  · rw [he, List.get?_map, List.get?_range (by omega : 1 < k + 1)]; rfl
  · intro i hi
    refine ⟨chebAt (scaled_laplacian invSqrt lam adj) i,
      chebAt (scaled_laplacian invSqrt lam adj) (i + 1), ?_, ?_, ?_⟩
    · rw [he, List.get?_map, List.get?_range (by omega : i < k + 1)]; rfl
    · rw [he, List.get?_map, List.get?_range (by omega : i + 1 < k + 1)]; rfl
    · rw [he, List.get?_map, List.get?_range (by omega : i + 2 < k + 1)]; rfl

/-- C3 witness: the amended statement evaluated at degree 2 on a one-node
graph with concrete parameters. -/
theorem C3_chebyshev_terms_witness :
    1 ≤ 2 ∧
    ((compute_chebyshev_polynomial (fun q => q) 1 (0 : Mat 1) 2).length = 2 + 1 ∧
     (compute_chebyshev_polynomial (fun q => q) 1 (0 : Mat 1) 2).get? 0
       = some (get_identity 1) ∧
     (compute_chebyshev_polynomial (fun q => q) 1 (0 : Mat 1) 2).get? 1
       = some (scaled_laplacian (fun q => q) 1 (0 : Mat 1)) ∧
     ∀ i, i + 2 ≤ 2 → ∃ a b,
       (compute_chebyshev_polynomial (fun q => q) 1 (0 : Mat 1) 2).get? i = some a ∧
       (compute_chebyshev_polynomial (fun q => q) 1 (0 : Mat 1) 2).get? (i + 1) = some b ∧
       (compute_chebyshev_polynomial (fun q => q) 1 (0 : Mat 1) 2).get? (i + 2)
         = some ((2 : ℚ) • (scaled_laplacian (fun q => q) 1 (0 : Mat 1) * b) - a)) :=
  ⟨by decide, C3_chebyshev_terms (fun q => q) 1 (0 : Mat 1) 2 (by decide)⟩

/-- C7 counterexample: the asymmetric call at a concrete input completes
without raising and returns None, refuting the claim that it fails fast
with an explicit error rather than returning a value. -/
theorem C7_asymmetric_cex :
    except_is_ok (renormalization_trick (fun q => q) (0 : Mat 1) false) = true ∧
    renormalization_trick (fun q => q) (0 : Mat 1) false = Except.ok none :=
  ⟨rfl, rfl⟩

/-- C7 amended: for every adjacency matrix (and abstracted inverse square
root), requesting the asymmetric mode does not raise: the `if symmetric:`
body is skipped and the function silently returns None, producing no
renormalized matrix; the failure only surfaces downstream. -/
theorem C7_asymmetric_returns_none {n : ℕ} (invSqrt : ℚ → ℚ) (adj : Mat n) :
    renormalization_trick invSqrt adj false = Except.ok none ∧
    except_is_ok (renormalization_trick invSqrt adj false) = true :=
  ⟨rfl, rfl⟩

end Pregel
